import Mathlib

/-!
Verification of the aggregation pipeline of the amberscript-dashboard
repository (scripts/aggregate.mjs and its helpers in scripts/utils.mjs,
scripts/fetch-stripe-charges.mjs / fetch-stripe-subs.mjs).

The JavaScript records are flat, loosely typed objects.  We embed them as
Lean structures in which a missing/undefined/null string field is the empty
string "" (matching JavaScript falsiness of both) and numbers are rationals.
JavaScript's `Math.round` is modelled exactly as `⌊x + 1/2⌋`.
-/

namespace Dash

/-- JS `a || b` for strings: the empty string is the only falsy string,
    so `a || b` is `b` exactly when `a` is `""` (or undefined, modelled as `""`). -/
def strOr (a b : String) : String := if a = "" then b else a

/-- JS `a || b` for numbers (restricted to the values that occur here):
    `0` is falsy, every other rational is truthy. -/
def qOr (a b : ℚ) : ℚ := if a = 0 then b else a

/-- JS `String.prototype.toLowerCase` (ASCII case folding, which is all the
    source's regular expressions rely on). -/
def lowerStr (s : String) : String := ⟨s.data.map Char.toLower⟩

/-- `pat` is a prefix of the second list (used to model substring search). -/
def listPrefixB : List Char → List Char → Bool
  | [], _ => true
  | _ :: _, [] => false
  | a :: as, b :: bs => a == b && listPrefixB as bs

/-- `pat` occurs as a contiguous substring of the list. -/
def containsSub (pat : List Char) : List Char → Bool
  | [] => listPrefixB pat []
  | c :: t => listPrefixB pat (c :: t) || containsSub pat t

/-- JS `s.includes(pat)` / `new RegExp(pat).test(s)` for a literal pattern. -/
def containsStr (s pat : String) : Bool := containsSub pat.data s.data

/-- Case-insensitive regex literal test `/pat/i.test(s)` for an
    all-lowercase literal `pat`, as used on charge descriptions. -/
def testI (s pat : String) : Bool := containsStr (lowerStr s) pat

/-- Lexicographic comparison of code-point lists; this is exactly the string
    order used by JavaScript's default `Array.prototype.sort` on our
    ASCII week keys. -/
def lexLeN : List Nat → List Nat → Bool
  | [], _ => true
  | _ :: _, [] => false
  | a :: as, b :: bs => if a < b then true else if b < a then false else lexLeN as bs

/-- JS default string comparison (code-unit lexicographic) as a Bool. -/
def strLeB (a b : String) : Bool := lexLeN (a.data.map Char.toNat) (b.data.map Char.toNat)

/-- JS default string comparison as a proposition. -/
def strLe (a b : String) : Prop := strLeB a b = true

instance : DecidableRel strLe := fun a b => inferInstanceAs (Decidable (_ = true))

theorem lexLeN_total (a b : List Nat) : lexLeN a b = true ∨ lexLeN b a = true := by
  induction a generalizing b with
  | nil => left; rfl
  | cons x as ih =>
    cases b with
    | nil => right; rfl
    | cons y bs =>
      by_cases h1 : x < y
      · left; simp [lexLeN, h1]
      · by_cases h2 : y < x
        · right; simp [lexLeN, h2, h1]
        · have hxy : x = y := by omega
          subst hxy
          rcases ih bs with h | h
          · left; simp [lexLeN, h, h1]
          · right; simp [lexLeN, h, h1]

theorem lexLeN_cons_iff (x y : Nat) (as bs : List Nat) :
    lexLeN (x :: as) (y :: bs) = true ↔ x < y ∨ (x = y ∧ lexLeN as bs = true) := by
  simp only [lexLeN]
  by_cases h1 : x < y
  · simp [h1]
  · by_cases h2 : y < x
    · rw [if_neg h1, if_pos h2]
      constructor
      · intro h; simp at h
      · intro h
        rcases h with h | ⟨h, _⟩ <;> omega
    · have hxy : x = y := by omega
      subst hxy
      simp [h1]

theorem lexLeN_trans (a b c : List Nat) (hab : lexLeN a b = true) (hbc : lexLeN b c = true) :
    lexLeN a c = true := by
  induction a generalizing b c with
  | nil => rfl
  | cons x as ih =>
    cases b with
    | nil => simp [lexLeN] at hab
    | cons y bs =>
      cases c with
      | nil => simp [lexLeN] at hbc
      | cons z cs =>
        rw [lexLeN_cons_iff] at hab hbc ⊢
        rcases hab with h | ⟨hxy, hab⟩
        · rcases hbc with h2 | ⟨hyz, _⟩
          · left; omega
          · left; omega
        · rcases hbc with h2 | ⟨hyz, hbc⟩
          · left; omega
          · right; exact ⟨by omega, ih _ _ hab hbc⟩

instance strLe_total : IsTotal String strLe := ⟨fun a b => lexLeN_total _ _⟩
instance strLe_trans : IsTrans String strLe := ⟨fun _ _ _ => lexLeN_trans _ _ _⟩

/-- First-occurrence deduplication with an accumulator of already-seen
    keys. -/
def firstDedupAux (seen : List String) : List String → List String
  | [] => []
  | a :: l => if a ∈ seen then firstDedupAux seen l else a :: firstDedupAux (a :: seen) l

/-- First-occurrence deduplication, matching the insertion-order key
    semantics of a JS `Set` / plain-object key table. -/
def firstDedup (l : List String) : List String := firstDedupAux [] l

theorem mem_firstDedupAux (x : String) :
    ∀ (l seen : List String), x ∈ firstDedupAux seen l ↔ (x ∈ l ∧ x ∉ seen) := by
  intro l
  induction l with
  | nil => simp [firstDedupAux]
  | cons a t ih =>
    intro seen
    by_cases ha : a ∈ seen
    · rw [firstDedupAux, if_pos ha, ih]
      constructor
      · rintro ⟨h1, h2⟩
        exact ⟨List.mem_cons_of_mem _ h1, h2⟩
      · rintro ⟨h1, h2⟩
        rcases List.mem_cons.mp h1 with h3 | h3
        · subst h3; exact absurd ha h2
        · exact ⟨h3, h2⟩
    · rw [firstDedupAux, if_neg ha]
      by_cases hx : x = a
      · subst hx
        simp [ha]
      · simp only [List.mem_cons, hx, false_or, ih]

theorem mem_firstDedup (x : String) (l : List String) : x ∈ firstDedup l ↔ x ∈ l := by
  unfold firstDedup
  rw [mem_firstDedupAux]
  simp

theorem nodup_firstDedupAux : ∀ (l seen : List String), (firstDedupAux seen l).Nodup := by
  intro l
  induction l with
  | nil => intro seen; simp [firstDedupAux]
  | cons a t ih =>
    intro seen
    by_cases ha : a ∈ seen
    · rw [firstDedupAux, if_pos ha]; exact ih _
    · rw [firstDedupAux, if_neg ha]
      refine List.nodup_cons.mpr ⟨?_, ih _⟩
      intro hmem
      exact ((mem_firstDedupAux a t (a :: seen)).mp hmem).2 (List.mem_cons_self _ _)

theorem nodup_firstDedup (l : List String) : (firstDedup l).Nodup :=
  nodup_firstDedupAux l []

/-- JS `dateStr.slice(0, n)` (`getMonth` in utils.mjs uses `slice(0, 7)`). -/
def takeStr (n : Nat) (s : String) : String := ⟨s.data.take n⟩

/-- JS `s.split(sep)` on a single-character separator. -/
def splitChar (sep : Char) : List Char → List (List Char)
  | [] => [[]]
  | c :: t =>
    let r := splitChar sep t
    if c = sep then [] :: r
    else match r with
      | [] => [[c]]
      | h :: t2 => (c :: h) :: t2

/-- `countryKey.split('_')[1]` from the legacy-charge normalization. -/
def countryOfKey (s : String) : String := ⟨(splitChar '_' s.data).getD 1 []⟩

/-- The regex `/^P1_[A-Z]{2}_\d+$/` applied to a metadata key. -/
def isCountryKey (s : String) : Bool :=
  match s.data with
  | 'P' :: '1' :: '_' :: a :: b :: '_' :: ds =>
    ('A' ≤ a && a ≤ 'Z') && ('A' ≤ b && b ≤ 'Z') && !ds.isEmpty &&
      ds.all (fun c => '0' ≤ c && c ≤ '9')
  | _ => false

/-- Property access `meta[k]` on a metadata blob modelled as key/value pairs;
    an absent key reads as `""` (undefined). -/
def metaGet (m : List (String × String)) (k : String) : String :=
  match m.find? (fun p => p.1 = k) with
  | some p => p.2
  | none => ""

/-- JS `Math.round`: round half toward positive infinity. -/
def jsRound (q : ℚ) : ℚ := (⌊q + 1/2⌋ : ℤ)

/-- `round(n, decimals)` from aggregate.mjs:
    `Math.round(n * 10^decimals) / 10^decimals`. -/
def roundTo (decimals : ℕ) (n : ℚ) : ℚ := jsRound (n * 10 ^ decimals) / 10 ^ decimals

/-- `round(n)` (two decimals, the default). -/
def round2 (n : ℚ) : ℚ := roundTo 2 n

/-- `round(n, 1)`. -/
def round1 (n : ℚ) : ℚ := roundTo 1 n

theorem jsRound_eq (q : ℚ) (n : ℤ) (h1 : (n : ℚ) ≤ q + 1/2) (h2 : q + 1/2 < n + 1) :
    jsRound q = (n : ℚ) := by
  unfold jsRound
  have : ⌊q + 1/2⌋ = n := Int.floor_eq_iff.mpr ⟨h1, by exact_mod_cast h2⟩
  rw [this]

theorem roundTo_eq (d : ℕ) (q : ℚ) (n : ℤ)
    (h1 : (n : ℚ) ≤ q * 10 ^ d + 1/2) (h2 : q * 10 ^ d + 1/2 < n + 1) :
    roundTo d q = (n : ℚ) / 10 ^ d := by
  unfold roundTo
  rw [jsRound_eq _ n h1 h2]

/-! ## Data model

Input records as loaded from the raw JSON snapshots (aggregate.mjs
`loadRaw`).  String fields that may be absent are defaulted to `""`,
numeric fields to `0`, mirroring JS `undefined` falsiness. -/

/-- A Google-Ads spend row (raw/google-ads.json). -/
structure Ad where
  week : String := ""
  cost : ℚ := 0
  country : String := ""
  product : String := ""
  userType : String := ""
  campaignType : String := ""
deriving DecidableEq

/-- A HubSpot deal (raw/hubspot-deals.json).  `channel` is absent at load
    time and is written by the enrichment pass. -/
structure Deal where
  id : String := ""
  createWeek : String := ""
  closeWeek : String := ""
  lifecycleStage : String := ""
  status : String := ""
  amount : ℚ := 0
  product : String := ""
  country : String := ""
  formId : String := ""
  ownerName : String := ""
  transcriptionStyle : String := ""
  additionalOptions : String := ""
  channel : String := ""
deriving DecidableEq

/-- A Stripe charge (raw/stripe-charges.json), covering both the canonical
    flat shape and the legacy shape whose extra fields live in `metadata`
    (modelled as key/value pairs; `none` = no metadata object). -/
structure Charge where
  id : String := ""
  week : String := ""
  amount : ℚ := 0
  currency : String := ""
  planType : String := ""
  planSubtype : String := ""
  country : String := ""
  product : String := ""
  paymentIdentifier : String := ""
  uploadBatchId : String := ""
  description : String := ""
  metadata : Option (List (String × String)) := none
  channel : String := ""
  campaign : String := ""
deriving DecidableEq

/-- A GA4 form-submission aggregate row (ga4.json `formSubmissions`). -/
structure Form where
  week : String := ""
  formId : String := ""
  channel : String := ""
  country : String := ""
  product : String := ""
  count : ℚ := 0
deriving DecidableEq

/-- A GA4 purchase row (ga4.json `purchases`). -/
structure Purchase where
  week : String := ""
  transactionId : String := ""
  channel : String := ""
  campaign : String := ""
  transactions : ℚ := 0
  revenue : ℚ := 0
deriving DecidableEq

/-- A Stripe subscription (raw/stripe-subs.json `subscriptions`). -/
structure Subscription where
  id : String := ""
  status : String := ""
  createdWeek : String := ""
  canceledWeek : String := ""
  planType : String := ""
  monthlyAmount : ℚ := 0
deriving DecidableEq

/-- The bundle of raw inputs `main()` loads before aggregating. -/
structure Inputs where
  googleAds : List Ad := []
  stripeCharges : List Charge := []
  hubspotDeals : List Deal := []
  formSubmissions : List Form := []
  ga4Purchases : List Purchase := []
  stripeSubs : List Subscription := []
deriving DecidableEq

/-! ## Classifiers (scripts/utils.mjs) -/

/-- `classifyChannel(source, medium)` from utils.mjs.  `none` models a
    null/undefined argument (coalesced by `(source || '')`). -/
def classifyChannel (source medium : Option String) : String :=
  let src := lowerStr (source.getD "")
  let med := lowerStr (medium.getD "")
  if containsStr med "cpc" || containsStr med "ppc" || containsStr med "paid" then
    if containsStr src "brand" || containsStr med "brand" then "Paid Search Brand"
    else "Paid Search Generic"
  else if med == "organic" || med == "seo" then "Organic"
  else if src == "(direct)" || src == "direct" || (src == "" && med == "") then "Direct"
  else if med == "referral" then "Referral"
  else if med == "email" then "Email"
  else "Other"

/-! ## Lookup builders (aggregate.mjs `main`, lines 94-112) -/

/-- Total count tallied for one `(formId, channel)` cell of
    `formChannelMap` (records with a falsy `formId` are skipped by the
    builder; for a non-empty `x` the filter below coincides with it). -/
def tallyOf (fs : List Form) (x ch : String) : ℚ :=
  ((fs.filter (fun f => f.formId == x && f.channel == ch)).map (·.count)).sum

/-- The channels appearing for a formId, in first-encountered order
    (JS object-key insertion order of `formChannelMap[formId]`). -/
def channelsFor (fs : List Form) (x : String) : List String :=
  firstDedup ((fs.filter (fun f => f.formId == x)).map (·.channel))

/-- Head of the stable descending sort in
    `Object.entries(channels).sort((a, b) => b[1] - a[1])[0]`:
    the first-encountered entry with the maximal tally (a later entry
    replaces the current best only when strictly greater). -/
def pickBest (l : List (String × ℚ)) : Option (String × ℚ) :=
  l.foldl
    (fun best p =>
      match best with
      | none => some p
      | some q => if q.2 < p.2 then some p else some q)
    none

/-- `formToChannel[x]` — the majority channel for a formId, `none` when the
    formId is falsy or never appears (key absent, JS `undefined`). -/
def formToChannel (fs : List Form) (x : String) : Option String :=
  if x = "" then none
  else (pickBest ((channelsFor fs x).map (fun ch => (ch, tallyOf fs x ch)))).map Prod.fst

/-- `txLookup[tid]` — GA4 purchase transactionId → {channel, campaign};
    built only from truthy transactionIds, last write wins. -/
def txLookup (ps : List Purchase) (tid : String) : Option (String × String) :=
  if tid = "" then none
  else (ps.reverse.find? (fun p => p.transactionId == tid)).map (fun p => (p.channel, p.campaign))

/-! ## Enrichment (aggregate.mjs `main`, lines 114-158) -/

/-- The deal-enrichment pass:
    `deal.channel = deal.formId ? (formToChannel[deal.formId] || 'Unknown') : 'Unknown'`. -/
def enrichDeal (fs : List Form) (d : Deal) : Deal :=
  { d with
    channel :=
      if d.formId ≠ "" then
        match formToChannel fs d.formId with
        | some ch => strOr ch "Unknown"
        | none => "Unknown"
      else "Unknown" }

/-- Legacy-charge normalization (aggregate.mjs lines 120-137): a record in
    the old metadata shape (`metadata` present, `planType` falsy) gets
    `country`, `product`, `planType`, `planSubtype` and its identifiers
    derived; every other record is untouched. -/
def normalizeCharge (c : Charge) : Charge :=
  match c.metadata with
  | some meta =>
    if c.planType = "" then
      let desc := c.description
      let countryKey := (meta.map Prod.fst).find? isCountryKey
      let planType :=
        if testI desc "subscription" then "Subscription"
        else if testI desc "invoice" then "Invoice"
        else "Prepaid"
      let planSubtype :=
        if planType = "Subscription" then
          (if testI desc "creation" then "Creation" else "Update")
        else if planType = "Prepaid" then
          (if metaGet meta "uploadBatchId" = "addCredit" then "Top-Up" else "Job Creation")
        else c.planSubtype
      { c with
        country := strOr c.country (match countryKey with
          | some k => countryOfKey k
          | none => ""),
        product := strOr c.product
          (if metaGet meta "jobType" = "perfect" then "Human-Made" else "Machine-Made"),
        planType := planType,
        planSubtype := planSubtype,
        paymentIdentifier := strOr c.paymentIdentifier (strOr (metaGet meta "paymentIdentifier") ""),
        uploadBatchId := strOr c.uploadBatchId (strOr (metaGet meta "uploadBatchId") "") }
    else c
  | none => c

/-- Charge channel attribution (aggregate.mjs lines 141-158): match
    `paymentIdentifier`, then `uploadBatchId` (excluding the reserved
    'addCredit' sentinel), against the transaction lookup; on a miss fall
    back to a plan-type-based channel and an empty campaign. -/
def enrichCharge (ps : List Purchase) (c : Charge) : Charge :=
  let payId := c.paymentIdentifier
  let upId := c.uploadBatchId
  let hit : Option (String × String) :=
    if payId ≠ "" ∧ (txLookup ps payId).isSome then txLookup ps payId
    else if upId ≠ "" ∧ upId ≠ "addCredit" ∧ (txLookup ps upId).isSome then txLookup ps upId
    else none
  match hit with
  | some m => { c with channel := m.1, campaign := m.2 }
  | none =>
    { c with
      channel := if c.planType = "Subscription" then "Subscription" else "Unknown",
      campaign := "" }

/-- The deals after the in-place enrichment loop. -/
def enrichedDeals (i : Inputs) : List Deal :=
  i.hubspotDeals.map (enrichDeal i.formSubmissions)

/-- The charges after the in-place normalization pass followed by the
    channel-attribution pass. -/
def enrichedCharges (i : Inputs) : List Charge :=
  (i.stripeCharges.map normalizeCharge).map (enrichCharge i.ga4Purchases)

/-! ## Week collection (aggregate.mjs lines 161-168)

`allWeeks` is a JS `Set` fed the `week` of every ads and charge row
unconditionally, and the truthy `createWeek`/`week` of deals, form
submissions and GA4 purchases.  Note that `main` never adds subscription
`createdWeek`/`canceledWeek` values to the set.  The set is then spread
and sorted with the default (code-unit lexicographic) comparison. -/

/-- The multiset of week keys fed into the `allWeeks` set, in insertion
    order.  The `stripeSubs` input is deliberately not consulted,
    matching the source. -/
def weekPool (i : Inputs) : List String :=
  (i.googleAds.map (·.week))
    ++ ((enrichedCharges i).map (·.week))
    ++ (((enrichedDeals i).filter (fun d => d.createWeek ≠ "")).map (·.createWeek))
    ++ ((i.formSubmissions.filter (fun f => f.week ≠ "")).map (·.week))
    ++ ((i.ga4Purchases.filter (fun p => p.week ≠ "")).map (·.week))

/-- `const weeks = [...allWeeks].sort()`. -/
def collectWeeks (i : Inputs) : List String :=
  List.insertionSort strLe (firstDedup (weekPool i))

/-! ## Weekly Stripe aggregate (aggregate.mjs lines 254-286, 464-477) -/

/-- The charges of one week bucket (`groupBy(stripeCharges, r => r.week)`,
    looked up at `week`, defaulting to `[]`). -/
def weekRows (i : Inputs) (w : String) : List Charge :=
  (enrichedCharges i).filter (fun r => r.week == w)

/-- The group keys of one `addTo` accumulation object, in first-write
    (JS object-key insertion) order. -/
def bucketKeys (rows : List Charge) (key : Charge → String) : List String :=
  firstDedup (rows.map key)

/-- One `{count, revenue}` group accumulated by `addTo`: the number of rows
    with that key, and the (unrounded) sum of their `amount`s. -/
def bucketFor (rows : List Charge) (key : Charge → String) (k : String) : ℕ × ℚ :=
  ((rows.filter (fun r => key r == k)).length,
    ((rows.filter (fun r => key r == k)).map (·.amount)).sum)

/-- The full per-key table produced by folding `addTo` over `rows`. -/
def breakdown (rows : List Charge) (key : Charge → String) : List (String × ℕ × ℚ) :=
  (bucketKeys rows key).map (fun k => (k, bucketFor rows key k))

/-- `roundCountRev`: round each group's revenue to 2 decimals at the
    output boundary. -/
def roundCountRev (l : List (String × ℕ × ℚ)) : List (String × ℕ × ℚ) :=
  l.map (fun e => (e.1, e.2.1, round2 e.2.2))

/-- One element of `weekly.stripe` (the pre-computed `seg` table is not
    referenced by any verified property and is omitted from the record). -/
structure WeekStripeRec where
  week : String
  totalRevenue : ℚ
  count : ℕ
  byPlanType : List (String × ℕ × ℚ)
  byProduct : List (String × ℕ × ℚ)
  byCountry : List (String × ℕ × ℚ)
  byCurrency : List (String × ℕ × ℚ)
  byChannel : List (String × ℕ × ℚ)
deriving DecidableEq

/-- The weekly Stripe bucket for a single week. -/
def buildWeekStripe (i : Inputs) (w : String) : WeekStripeRec :=
  let rows := weekRows i w
  { week := w
    totalRevenue := round2 ((rows.map (·.amount)).sum)
    count := rows.length
    byPlanType := roundCountRev (breakdown rows (·.planType))
    byProduct := roundCountRev (breakdown rows (·.product))
    byCountry := roundCountRev (breakdown rows (fun r => strOr r.country "Unknown"))
    byCurrency := roundCountRev (breakdown rows (·.currency))
    byChannel := roundCountRev (breakdown rows (·.channel)) }

/-- `weekly.stripe`: one bucket per derived week. -/
def weeklyStripeOf (i : Inputs) : List WeekStripeRec :=
  (collectWeeks i).map (buildWeekStripe i)

/-! ## Weekly subscription metrics (aggregate.mjs lines 379-398) -/

/-- One element of `weekly.subs` (the nested `byPlan` object is
    flattened into four fields). -/
structure WeekSubRec where
  week : String
  newSubs : ℕ
  newMrr : ℚ
  churnedSubs : ℕ
  churnedMrr : ℚ
  netMrr : ℚ
  monthlyNew : ℕ
  monthlyChurned : ℕ
  yearlyNew : ℕ
  yearlyChurned : ℕ
deriving DecidableEq

/-- The weekly subscription bucket: `subsByCreatedWeek`/`subsByCanceledWeek`
    are built only from subscriptions with a truthy week field. -/
def buildWeekSubs (i : Inputs) (w : String) : WeekSubRec :=
  let created := (i.stripeSubs.filter (fun s => s.createdWeek ≠ "")).filter
    (fun s => s.createdWeek == w)
  let canceled := (i.stripeSubs.filter (fun s => s.canceledWeek ≠ "")).filter
    (fun s => s.canceledWeek == w)
  let newMrr := round2 ((created.map (·.monthlyAmount)).sum)
  let churnedMrr := round2 ((canceled.map (·.monthlyAmount)).sum)
  { week := w
    newSubs := created.length
    newMrr := newMrr
    churnedSubs := canceled.length
    churnedMrr := churnedMrr
    netMrr := round2 (newMrr - churnedMrr)
    monthlyNew := (created.filter (fun s => s.planType == "monthly")).length
    monthlyChurned := (canceled.filter (fun s => s.planType == "monthly")).length
    yearlyNew := (created.filter (fun s => s.planType == "yearly")).length
    yearlyChurned := (canceled.filter (fun s => s.planType == "yearly")).length }

/-- `weekly.subs`: iterates only over the derived week list, so a
    subscription whose weeks are absent from it is never surfaced. -/
def weeklySubMetricsOf (i : Inputs) : List WeekSubRec :=
  (collectWeeks i).map (buildWeekSubs i)

/-! ## Monthly aggregates and KPIs (aggregate.mjs lines 299-349) -/

/-- `getMonth` from utils.mjs: `dateStr.slice(0, 7)`. -/
def getMonth (w : String) : String := takeStr 7 w

/-- `allMonths = [...new Set(weeks.map(getMonth))].sort()`. -/
def allMonths (i : Inputs) : List String :=
  List.insertionSort strLe (firstDedup ((collectWeeks i).map getMonth))

/-- One element of `monthly` (the `stripeSeg` segment table is not
    referenced by any verified property and is omitted from the record). -/
structure MonthRec where
  month : String
  adsCost : ℚ
  mmCost : ℚ
  hmCost : ℚ
  brandCost : ℚ
  leads : ℚ
  mqls : ℕ
  mqlsFromLeads : ℕ
  sqls : ℕ
  sqlsFromLeads : ℕ
  won : ℕ
  wonRevenue : ℚ
  mqlToSql : ℚ
  sqlToWon : ℚ
  stripeRevenue : ℚ
deriving DecidableEq

/-- Whether a deal counts as an SQL: `['SQL', 'Customer'].includes(r.lifecycleStage)`. -/
def isSql (d : Deal) : Bool := d.lifecycleStage == "SQL" || d.lifecycleStage == "Customer"

/-- The monthly rollup for a single month key. -/
def buildMonth (i : Inputs) (mo : String) : MonthRec :=
  let monthWeeks := (collectWeeks i).filter (fun w => getMonth w == mo)
  let adRows := monthWeeks.flatMap (fun w => i.googleAds.filter (fun r => r.week == w))
  let dealRows := monthWeeks.flatMap
    (fun w => (enrichedDeals i).filter (fun r => r.createWeek == w))
  let formRows := monthWeeks.flatMap
    (fun w => i.formSubmissions.filter (fun r => r.week == w))
  let chargeRows := monthWeeks.flatMap (fun w => weekRows i w)
  let mqls := dealRows.length
  let sqls := (dealRows.filter isSql).length
  let won := (dealRows.filter (fun r => r.status == "Won")).length
  { month := mo
    adsCost := round2 ((adRows.map (·.cost)).sum)
    mmCost := round2 (((adRows.filter (fun r => r.userType == "Machine-Made")).map (·.cost)).sum)
    hmCost := round2 (((adRows.filter (fun r => r.userType == "Human-Made")).map (·.cost)).sum)
    brandCost := round2 (((adRows.filter (fun r => r.campaignType == "Brand")).map (·.cost)).sum)
    leads := (formRows.map (·.count)).sum
    mqls := mqls
    mqlsFromLeads := (dealRows.filter (fun r => r.formId ≠ "")).length
    sqls := sqls
    sqlsFromLeads := (dealRows.filter (fun r => r.formId ≠ "" && isSql r)).length
    won := won
    wonRevenue := round2 (((dealRows.filter (fun r => r.status == "Won")).map (·.amount)).sum)
    mqlToSql := if 0 < mqls then round1 ((sqls : ℚ) / (mqls : ℚ) * 100) else 0
    sqlToWon := if 0 < sqls then round1 ((won : ℚ) / (sqls : ℚ) * 100) else 0
    stripeRevenue := round2 ((chargeRows.map (·.amount)).sum) }

/-- The `monthly` array of the output document. -/
def monthlyOf (i : Inputs) : List MonthRec :=
  (allMonths i).map (buildMonth i)

/-- KPI `totalStripeRevenue = round(stripeCharges.reduce((s, r) => s + r.amount, 0))`. -/
def totalStripeRevenueOf (i : Inputs) : ℚ :=
  round2 (((enrichedCharges i).map (·.amount)).sum)

/-- KPI `totalAdsCost = round(googleAds.reduce((s, r) => s + r.cost, 0))`. -/
def totalAdsCostOf (i : Inputs) : ℚ :=
  round2 ((i.googleAds.map (·.cost)).sum)

/-- KPI `roas = totalAdsCost > 0 ? round(totalStripeRevenue / totalAdsCost, 2) : 0`. -/
def roasOf (i : Inputs) : ℚ :=
  if 0 < totalAdsCostOf i then round2 (totalStripeRevenueOf i / totalAdsCostOf i) else 0

/-! ## Subscription monthly-equivalent amount
(fetch-stripe-subs.mjs `getMonthlyAmount` and `mapSub`) -/

/-- The single subscription item `sub.items?.data?.[0]`, with the raw
    Stripe fields it contributes: `price.unit_amount` (in cents),
    `quantity`, `price.recurring.interval`, `price.recurring.interval_count`. -/
structure SubItem where
  unitAmountCents : ℚ := 0
  quantity : ℚ := 0
  interval : String := ""
  intervalCount : ℚ := 0
deriving DecidableEq

/-- `getMonthlyAmount(sub)`: monthly-equivalent amount by exact
    interval-count division (`none` models a subscription with no item). -/
def getMonthlyAmount (item? : Option SubItem) : ℚ :=
  match item? with
  | none => 0
  | some item =>
    let unitAmount := item.unitAmountCents / 100
    let quantity := qOr item.quantity 1
    let interval := strOr item.interval "month"
    let intervalCount := qOr item.intervalCount 1
    let total := unitAmount * quantity
    if interval == "year" then total / (12 * intervalCount)
    else if interval == "month" then total / intervalCount
    else if interval == "week" then total * (52 / 12) / intervalCount
    else if interval == "day" then total * (365 / 12) / intervalCount
    else total

/-- `mapSub`: `monthlyAmount = Math.round(getMonthlyAmount(s) * 100) / 100`,
    i.e. the monthly-equivalent rounded to 2 decimals. -/
def monthlyAmountOf (item? : Option SubItem) : ℚ :=
  round2 (getMonthlyAmount item?)

/-- Sum of the `count` components of a rounded breakdown table. -/
def sumCounts (l : List (String × ℕ × ℚ)) : ℕ := (l.map (fun e => e.2.1)).sum

/-- Sum of the `revenue` components of a breakdown table. -/
def sumRevs (l : List (String × ℕ × ℚ)) : ℚ := (l.map (fun e => e.2.2)).sum

/-! ## Concrete inputs used by witnesses and counterexamples -/
/-- A legacy-shaped charge whose description marks it as an invoice. -/
def invoiceLegacyCharge : Charge :=
  { week := "2025-01-06", amount := 40, currency := "EUR",
    description := "Invoice 2025-0042", metadata := some [] }

/-- A legacy-shaped charge whose description marks it as a subscription
    creation payment. -/
def subLegacyCharge : Charge :=
  { week := "2025-01-13", amount := 29, currency := "EUR",
    description := "Subscription creation", metadata := some [("jobType", "perfect")] }

/-- A GA4 purchase whose transactionId happens to be the sentinel string. -/
def purchaseAddCredit : Purchase :=
  { week := "2025-01-06", transactionId := "addCredit",
    channel := "Organic", campaign := "brandcamp" }

/-- A prepaid top-up charge carrying the sentinel `uploadBatchId`. -/
def topUpCharge : Charge :=
  { week := "2025-01-06", amount := 30, currency := "EUR",
    planType := "Prepaid", planSubtype := "Top-Up", uploadBatchId := "addCredit" }

/-! ## C9: classifyChannel is total and closed -/

/-- The fixed channel enumeration of the spec. -/
def channelEnum : List String :=
  ["Paid Search Brand", "Paid Search Generic", "Organic", "Direct", "Referral", "Email", "Other"]

/-- Form submissions in which formId "X" has majority channel "Organic". -/
def organicForms : List Form :=
  [{ week := "2025-03-10", formId := "X", channel := "Organic", count := 3 },
   { week := "2025-03-10", formId := "X", channel := "Direct", count := 1 }]

/-- A deal pointing at form "X". -/
def formDeal : Deal := { id := "d1", createWeek := "2025-03-10", formId := "X" }

/-- A concrete ad row for the C1 witness. -/
def mixedAd : Ad := { week := "2025-03-10", cost := 50 }

/-- A concrete charge for the C1 witness. -/
def mixedCharge : Charge :=
  { week := "2025-03-03", amount := 5, currency := "EUR", planType := "Prepaid" }

/-- A concrete deal for the C1 witness. -/
def mixedDeal : Deal := { id := "d1", createWeek := "2025-03-17", lifecycleStage := "SQL" }

/-- A concrete form submission for the C1 witness. -/
def mixedForm : Form := { week := "2025-03-10", formId := "F", channel := "Organic", count := 2 }

/-- A concrete GA4 purchase for the C1 witness. -/
def mixedPurchase : Purchase := { week := "2025-03-24", transactionId := "t1", channel := "Direct" }

/-- One record of every kind, with distinct weeks. -/
def mixedInputs : Inputs :=
  { googleAds := [mixedAd]
    stripeCharges := [mixedCharge]
    hubspotDeals := [mixedDeal]
    formSubmissions := [mixedForm]
    ga4Purchases := [mixedPurchase] }

/-- A subscription created in a week in which no other source has data. -/
def soloSubscription : Subscription :=
  { id := "sub1", status := "canceled", createdWeek := "2025-01-06",
    canceledWeek := "2025-02-03", planType := "monthly", monthlyAmount := 29 }

/-- An input bundle whose only record is that subscription. -/
def subsOnlyInputs : Inputs := { stripeSubs := [soloSubscription] }

/-- A yearly subscription item: unit amount 120 (12000 cents),
    interval "year", interval count 1, quantity absent (defaults to 1). -/
def yearlyItem : SubItem :=
  { unitAmountCents := 12000, quantity := 0, interval := "year", intervalCount := 1 }

/-- A charge of 0.004 with a given plan type (rounding makes each group
    revenue 0 while the week total rounds to 0.02).  The amount is written
    `mkRat 1 250` so that the kernel can evaluate it. -/
def tinyCharge (pt : String) : Charge :=
  { week := "2025-01-06", amount := mkRat 1 250, currency := "EUR", planType := pt }

/-- Four sub-cent charges in four distinct plan-type groups. -/
def fractionalInputs : Inputs :=
  { stripeCharges := [tinyCharge "A", tinyCharge "B", tinyCharge "C", tinyCharge "D"] }

/-- The published weekly Stripe bucket for that input. -/
def fractionalWeek : WeekStripeRec := buildWeekStripe fractionalInputs "2025-01-06"

/-- `tinyCharge pt` after the (here trivial) normalization pass and the
    channel-attribution fallback. -/
def tinyEnriched (pt : String) : Charge :=
  { week := "2025-01-06", amount := mkRat 1 250, currency := "EUR", planType := pt,
    channel := "Unknown" }

/-! ## C5: zero-denominator guards -/

/-- C5: every derived ratio is guarded against a zero denominator: in each
    month, `mqlToSql` is `round(sqls/mqls*100, 1)` when `mqls > 0` and `0`
    when `mqls = 0` (likewise `sqlToWon` over `sqls`), and the ROAS KPI is
    `round(totalStripeRevenue/totalAdsCost, 2)` when `totalAdsCost > 0`
    and `0` otherwise.  (In this rational-number embedding no value can be
    NaN or Infinity; the guards are what keeps the JS computation away
    from `0/0` and `x/0`.) -/
theorem ratio_zero_guards (i : Inputs) :
    (∀ m ∈ monthlyOf i,
      (m.mqls = 0 → m.mqlToSql = 0)
      ∧ (0 < m.mqls → m.mqlToSql = round1 ((m.sqls : ℚ) / (m.mqls : ℚ) * 100))
      ∧ (m.sqls = 0 → m.sqlToWon = 0)
      ∧ (0 < m.sqls → m.sqlToWon = round1 ((m.won : ℚ) / (m.sqls : ℚ) * 100)))
    ∧ (¬ 0 < totalAdsCostOf i → roasOf i = 0)
    ∧ (0 < totalAdsCostOf i →
        roasOf i = round2 (totalStripeRevenueOf i / totalAdsCostOf i)) := by
  refine ⟨?_, ?_, ?_⟩
  · intro m hm
    obtain ⟨mo, hmo, rfl⟩ := List.mem_map.mp hm
    unfold buildMonth
    dsimp only
    refine ⟨?_, ?_, ?_, ?_⟩
    · intro h
      rw [if_neg (by omega)]
    · intro h
      rw [if_pos h]
    · intro h
      rw [if_neg (by omega)]
    · intro h
      rw [if_pos h]
  · intro h
    unfold roasOf
    rw [if_neg h]
  · intro h
    unfold roasOf
    rw [if_pos h]

/-! ## Facts about charge normalization -/

/-- A charge with a truthy `planType` is skipped by the normalization pass. -/
theorem normalizeCharge_skip (c : Charge) (h : c.planType ≠ "") : normalizeCharge c = c := by
  unfold normalizeCharge
  cases hm : c.metadata with
  | none => rfl
  | some meta => simp [h]

/-- After the pass, either nothing changed or `planType` is truthy. -/
theorem normalizeCharge_planType_cases (c : Charge) :
    normalizeCharge c = c ∨ (normalizeCharge c).planType ≠ "" := by
  unfold normalizeCharge
  cases hm : c.metadata with
  | none => left; rfl
  | some meta =>
    by_cases hp : c.planType = ""
    · right
      simp only [hp, if_true]
      split_ifs <;> decide
    · left; simp [hp]

/-- C2: Charge normalization is idempotent: for every list of charge
    records, applying the normalization pass twice yields exactly the same
    records as applying it once, because a record that has a `planType`
    after the first pass is skipped by the second pass. -/
theorem charge_normalization_idempotent (cs : List Charge) :
    (cs.map normalizeCharge).map normalizeCharge = cs.map normalizeCharge := by
  rw [List.map_map]
  apply List.map_congr_left
  intro c _
  rcases normalizeCharge_planType_cases c with h | h
  · simp only [Function.comp_apply, h]
  · simp only [Function.comp_apply, normalizeCharge_skip _ h]

/-- C3 counterexample: a legacy charge classified as an Invoice ends the
    normalization pass with `planType` set but with `planSubtype` and
    `country` still empty — so not every normalized charge has all of
    `planType`, `planSubtype` and `country` populated. -/
theorem normalize_invoice_missing_subtype :
    (normalizeCharge invoiceLegacyCharge).planType = "Invoice"
    ∧ (normalizeCharge invoiceLegacyCharge).planSubtype = ""
    ∧ (normalizeCharge invoiceLegacyCharge).country = "" := by
  decide

/-- C3 (amended): after the normalization pass, every charge that arrived
    in the legacy metadata shape has `planType` populated with one of
    'Subscription' / 'Invoice' / 'Prepaid', and `planSubtype` populated
    whenever that `planType` is not 'Invoice'. -/
theorem normalize_populates (c : Charge) (m : List (String × String))
    (hp : c.planType = "") (hm : c.metadata = some m) :
    ((normalizeCharge c).planType = "Subscription"
      ∨ (normalizeCharge c).planType = "Invoice"
      ∨ (normalizeCharge c).planType = "Prepaid")
    ∧ ((normalizeCharge c).planType ≠ "Invoice" → (normalizeCharge c).planSubtype ≠ "") := by
  unfold normalizeCharge
  rw [hm]
  simp only [hp, if_true]
  constructor
  · split_ifs <;> simp
  · split_ifs <;> intro h <;> simp_all

/-- Witness for C3 (amended) at a concrete legacy charge. -/
theorem normalize_populates_witness :
    ((normalizeCharge subLegacyCharge).planType = "Subscription"
      ∨ (normalizeCharge subLegacyCharge).planType = "Invoice"
      ∨ (normalizeCharge subLegacyCharge).planType = "Prepaid")
    ∧ (normalizeCharge subLegacyCharge).planSubtype ≠ "" := by
  have h := normalize_populates subLegacyCharge [("jobType", "perfect")] rfl rfl
  exact ⟨h.1, h.2 (by decide)⟩

/-! ## C4: the addCredit sentinel -/

/-- C4: a charge whose `uploadBatchId` is the reserved sentinel 'addCredit'
    and whose `paymentIdentifier` misses the transaction lookup never
    adopts a lookup entry (even when 'addCredit' is present as a key):
    it falls back to channel 'Subscription' when its planType is
    'Subscription', otherwise 'Unknown', with campaign ''. -/
theorem addCredit_sentinel (ps : List Purchase) (c : Charge)
    (hup : c.uploadBatchId = "addCredit")
    (hpay : c.paymentIdentifier = "" ∨ txLookup ps c.paymentIdentifier = none) :
    (enrichCharge ps c).channel
        = (if c.planType = "Subscription" then "Subscription" else "Unknown")
    ∧ (enrichCharge ps c).campaign = "" := by
  unfold enrichCharge
  have h1 : ¬(c.paymentIdentifier ≠ "" ∧ (txLookup ps c.paymentIdentifier).isSome) := by
    rcases hpay with h | h <;> simp [h]
  have h2 : ¬(c.uploadBatchId ≠ ""
      ∧ c.uploadBatchId ≠ "addCredit" ∧ (txLookup ps c.uploadBatchId).isSome) := by
    simp [hup]
  dsimp only
  rw [if_neg h1, if_neg h2]
  exact ⟨rfl, rfl⟩

/-- Witness for C4: even though 'addCredit' is a key of the transaction
    lookup here, the charge falls back to 'Unknown' / ''. -/
theorem addCredit_sentinel_witness :
    (enrichCharge [purchaseAddCredit] topUpCharge).channel = "Unknown"
    ∧ (enrichCharge [purchaseAddCredit] topUpCharge).campaign = "" := by
  have h := addCredit_sentinel [purchaseAddCredit] topUpCharge rfl (Or.inl rfl)
  refine ⟨?_, h.2⟩
  rw [h.1]
  decide

/-- C9: for every pair of source and medium values (null, empty or
    arbitrary), `classifyChannel` returns one of the seven fixed channel
    values — never the empty string — and the paid-search test takes
    priority over the organic / direct / referral / email rules. -/
theorem classifyChannel_closed (source medium : Option String) :
    classifyChannel source medium ∈ channelEnum
    ∧ classifyChannel source medium ≠ ""
    ∧ ((containsStr (lowerStr (medium.getD "")) "cpc"
          || containsStr (lowerStr (medium.getD "")) "ppc"
          || containsStr (lowerStr (medium.getD "")) "paid") = true →
        classifyChannel source medium = "Paid Search Brand"
        ∨ classifyChannel source medium = "Paid Search Generic") := by
  unfold classifyChannel
  dsimp only
  split_ifs with h1 h2 h3 h4 h5 h6
  · exact ⟨by decide, by decide, fun _ => Or.inl rfl⟩
  · exact ⟨by decide, by decide, fun _ => Or.inr rfl⟩
  · exact ⟨by decide, by decide, fun hx => absurd hx h1⟩
  · exact ⟨by decide, by decide, fun hx => absurd hx h1⟩
  · exact ⟨by decide, by decide, fun hx => absurd hx h1⟩
  · exact ⟨by decide, by decide, fun hx => absurd hx h1⟩
  · exact ⟨by decide, by decide, fun hx => absurd hx h1⟩

/-- Witness for C9 at a concrete paid-search input. -/
theorem classifyChannel_closed_witness :
    classifyChannel (some "google") (some "cpc") = "Paid Search Brand"
    ∨ classifyChannel (some "google") (some "cpc") = "Paid Search Generic" :=
  (classifyChannel_closed (some "google") (some "cpc")).2.2 (by decide)

/-! ## C7: form-to-channel majority vote and deal enrichment -/

theorem pickBest_fold_spec (l : List (String × ℚ)) :
    ∀ q0 q : String × ℚ,
      l.foldl
        (fun best p =>
          match best with
          | none => some p
          | some q2 => if q2.2 < p.2 then some p else some q2)
        (some q0) = some q →
      (q = q0 ∨ q ∈ l) ∧ q0.2 ≤ q.2 ∧ ∀ p ∈ l, p.2 ≤ q.2 := by
  induction l with
  | nil =>
    intro q0 q h
    simp only [List.foldl_nil, Option.some.injEq] at h
    subst h
    exact ⟨Or.inl rfl, le_refl _, by simp⟩
  | cons p t ih =>
    intro q0 q h
    simp only [List.foldl_cons] at h
    by_cases hc : q0.2 < p.2
    · rw [if_pos hc] at h
      obtain ⟨hmem, hle, hall⟩ := ih p q h
      refine ⟨?_, le_trans (le_of_lt hc) hle, ?_⟩
      · rcases hmem with h1 | h1
        · exact Or.inr (h1 ▸ List.mem_cons_self _ _)
        · exact Or.inr (List.mem_cons_of_mem _ h1)
      · intro p2 hp2
        rcases List.mem_cons.mp hp2 with h2 | h2
        · exact h2 ▸ hle
        · exact hall _ h2
    · rw [if_neg hc] at h
      obtain ⟨hmem, hle, hall⟩ := ih q0 q h
      refine ⟨?_, hle, ?_⟩
      · rcases hmem with h1 | h1
        · exact Or.inl h1
        · exact Or.inr (List.mem_cons_of_mem _ h1)
      · intro p2 hp2
        rcases List.mem_cons.mp hp2 with h2 | h2
        · exact h2 ▸ le_trans (not_lt.mp hc) hle
        · exact hall _ h2

/-- `pickBest` returns an entry of the list whose tally is maximal. -/
theorem pickBest_spec (l : List (String × ℚ)) (q : String × ℚ) (h : pickBest l = some q) :
    q ∈ l ∧ ∀ p ∈ l, p.2 ≤ q.2 := by
  cases l with
  | nil => simp [pickBest] at h
  | cons p t =>
    unfold pickBest at h
    simp only [List.foldl_cons] at h
    obtain ⟨hmem, hq0, hall⟩ := pickBest_fold_spec t p q h
    constructor
    · rcases hmem with h1 | h1
      · exact h1 ▸ List.mem_cons_self _ _
      · exact List.mem_cons_of_mem _ h1
    · intro p2 hp2
      rcases List.mem_cons.mp hp2 with h2 | h2
      · exact h2 ▸ hq0
      · exact hall _ h2

/-- A successful `formToChannel` lookup returns a channel that appears for
    that formId and whose tally is maximal among them. -/
theorem formToChannel_some (fs : List Form) (x ch : String)
    (h : formToChannel fs x = some ch) :
    ch ∈ channelsFor fs x ∧ ∀ c ∈ channelsFor fs x, tallyOf fs x c ≤ tallyOf fs x ch := by
  unfold formToChannel at h
  by_cases hx : x = ""
  · rw [if_pos hx] at h; cases h
  · rw [if_neg hx] at h
    obtain ⟨q, hq, hfst⟩ := Option.map_eq_some'.mp h
    obtain ⟨hmem, hall⟩ := pickBest_spec _ q hq
    obtain ⟨c0, hc0, hq_eq⟩ := List.mem_map.mp hmem
    have hc : c0 = ch := by rw [← hfst, ← hq_eq]
    subst hc
    refine ⟨hc0, ?_⟩
    intro c hc2
    have hin : (c, tallyOf fs x c) ∈ (channelsFor fs x).map (fun c2 => (c2, tallyOf fs x c2)) :=
      List.mem_map.mpr ⟨c, hc2, rfl⟩
    have hle := hall _ hin
    have hq2 : q.2 = tallyOf fs x c0 := by rw [← hq_eq]
    rw [hq2] at hle
    exact hle

/-- C7: the form-to-channel lookup maps each formId to a channel of
    maximal total submission count for that formId, and deal enrichment
    sets `channel` to the looked-up channel when the deal's formId is
    present in the map and to 'Unknown' otherwise.  (The hypothesis that
    form submissions carry a non-empty channel reflects the data model:
    GA4 channels are produced by `classifyChannel`, which never returns
    the empty string.) -/
theorem deal_channel_majority (fs : List Form) (d : Deal)
    (hch : ∀ f ∈ fs, f.channel ≠ "") :
    (∀ ch, formToChannel fs d.formId = some ch →
        (enrichDeal fs d).channel = ch
        ∧ ∀ c ∈ channelsFor fs d.formId, tallyOf fs d.formId c ≤ tallyOf fs d.formId ch)
    ∧ ((d.formId = "" ∨ formToChannel fs d.formId = none) →
        (enrichDeal fs d).channel = "Unknown") := by
  constructor
  · intro ch h
    have hx : d.formId ≠ "" := by
      intro hx
      rw [formToChannel, if_pos hx] at h
      cases h
    obtain ⟨hmem, hall⟩ := formToChannel_some fs d.formId ch h
    have hchne : ch ≠ "" := by
      have hmemf := hmem
      unfold channelsFor at hmemf
      have hmem2 : ch ∈ (fs.filter (fun f => f.formId == d.formId)).map (·.channel) :=
        (mem_firstDedup _ _).mp hmemf
      obtain ⟨f, hf, hfe⟩ := List.mem_map.mp hmem2
      rw [← hfe]
      exact hch f (List.mem_of_mem_filter hf)
    refine ⟨?_, hall⟩
    unfold enrichDeal
    dsimp only
    rw [if_pos hx, h]
    simp [strOr, hchne]
  · intro h
    unfold enrichDeal
    dsimp only
    rcases h with h | h
    · rw [if_neg (by simp [h])]
    · by_cases hx : d.formId = ""
      · rw [if_neg (by simp [hx])]
      · rw [if_pos hx, h]

theorem formToChannel_organic : formToChannel organicForms "X" = some "Organic" := by
  have hkeys : channelsFor organicForms "X" = ["Organic", "Direct"] := by decide
  have hfO : organicForms.filter (fun f => f.formId == "X" && f.channel == "Organic")
      = [{ week := "2025-03-10", formId := "X", channel := "Organic", count := 3 }] := by decide
  have hfD : organicForms.filter (fun f => f.formId == "X" && f.channel == "Direct")
      = [{ week := "2025-03-10", formId := "X", channel := "Direct", count := 1 }] := by decide
  have hO : tallyOf organicForms "X" "Organic" = 3 := by
    rw [tallyOf, hfO]; simp
  have hD : tallyOf organicForms "X" "Direct" = 1 := by
    rw [tallyOf, hfD]; simp
  unfold formToChannel
  rw [if_neg (by decide), hkeys]
  dsimp only [List.map]
  rw [hO, hD]
  unfold pickBest
  simp only [List.foldl_cons, List.foldl_nil]
  rw [if_neg (by norm_num)]
  rfl

/-- Witness for C7: a deal with formId "X", where "X" has majority channel
    "Organic", is enriched to channel "Organic". -/
theorem deal_channel_majority_witness :
    (enrichDeal organicForms formDeal).channel = "Organic" :=
  ((deal_channel_majority organicForms formDeal (by decide)).1 "Organic"
    formToChannel_organic).1

/-! ## C10: deal enrichment is frame-preserving -/

/-- C10: the deal-enrichment pass writes only the `channel` field; every
    other field of the deal is unchanged. -/
theorem enrichDeal_frame (fs : List Form) (d : Deal) :
    (enrichDeal fs d).id = d.id
    ∧ (enrichDeal fs d).createWeek = d.createWeek
    ∧ (enrichDeal fs d).closeWeek = d.closeWeek
    ∧ (enrichDeal fs d).lifecycleStage = d.lifecycleStage
    ∧ (enrichDeal fs d).status = d.status
    ∧ (enrichDeal fs d).amount = d.amount
    ∧ (enrichDeal fs d).product = d.product
    ∧ (enrichDeal fs d).country = d.country
    ∧ (enrichDeal fs d).formId = d.formId
    ∧ (enrichDeal fs d).ownerName = d.ownerName
    ∧ (enrichDeal fs d).transcriptionStyle = d.transcriptionStyle
    ∧ (enrichDeal fs d).additionalOptions = d.additionalOptions :=
  ⟨rfl, rfl, rfl, rfl, rfl, rfl, rfl, rfl, rfl, rfl, rfl, rfl⟩

/-! ## C1: the derived week list -/

/-- Normalization never touches the `week` field of a charge. -/
theorem normalizeCharge_week (c : Charge) : (normalizeCharge c).week = c.week := by
  unfold normalizeCharge
  cases hm : c.metadata with
  | none => rfl
  | some meta =>
    by_cases hp : c.planType = ""
    · simp [hp]
    · simp [hp]

/-- Channel attribution never touches the `week` field of a charge. -/
theorem enrichCharge_week (ps : List Purchase) (c : Charge) :
    (enrichCharge ps c).week = c.week := by
  unfold enrichCharge
  dsimp only
  split <;> rfl

theorem mem_collectWeeks (i : Inputs) (x : String) :
    x ∈ collectWeeks i ↔ x ∈ weekPool i := by
  unfold collectWeeks
  rw [(List.perm_insertionSort strLe _).mem_iff, mem_firstDedup]

/-- C1 (amended): for every collection of inputs, the derived week list is
    sorted ascending (in the JS code-unit string order), has no
    duplicates, contains the `week` of every ad-spend row and of every
    charge, and contains every non-empty deal `createWeek`, form
    submission `week` and GA4 purchase `week`.  (Subscription
    `createdWeek` / `canceledWeek` values are not collected — see the
    counterexample.) -/
theorem collectWeeks_spec (i : Inputs) :
    List.Sorted strLe (collectWeeks i)
    ∧ (collectWeeks i).Nodup
    ∧ (∀ a ∈ i.googleAds, a.week ∈ collectWeeks i)
    ∧ (∀ c ∈ i.stripeCharges, c.week ∈ collectWeeks i)
    ∧ (∀ d ∈ i.hubspotDeals, d.createWeek ≠ "" → d.createWeek ∈ collectWeeks i)
    ∧ (∀ f ∈ i.formSubmissions, f.week ≠ "" → f.week ∈ collectWeeks i)
    ∧ (∀ p ∈ i.ga4Purchases, p.week ≠ "" → p.week ∈ collectWeeks i) := by
  refine ⟨List.sorted_insertionSort _ _,
    ((List.perm_insertionSort strLe _).nodup_iff).mpr (nodup_firstDedup _),
    ?_, ?_, ?_, ?_, ?_⟩
  · intro a ha
    rw [mem_collectWeeks]
    unfold weekPool
    simp only [List.mem_append, List.mem_map]
    exact Or.inl (Or.inl (Or.inl (Or.inl ⟨a, ha, rfl⟩)))
  · intro c hc
    rw [mem_collectWeeks]
    unfold weekPool
    simp only [List.mem_append, List.mem_map]
    refine Or.inl (Or.inl (Or.inl (Or.inr
      ⟨enrichCharge i.ga4Purchases (normalizeCharge c), ?_, ?_⟩)))
    · exact List.mem_map_of_mem _ (List.mem_map_of_mem _ hc)
    · rw [enrichCharge_week, normalizeCharge_week]
  · intro d hd hne
    rw [mem_collectWeeks]
    unfold weekPool
    simp only [List.mem_append, List.mem_map]
    refine Or.inl (Or.inl (Or.inr ⟨enrichDeal i.formSubmissions d, ?_, rfl⟩))
    refine List.mem_filter.mpr ⟨List.mem_map_of_mem _ hd, ?_⟩
    exact decide_eq_true hne
  · intro f hf hne
    rw [mem_collectWeeks]
    unfold weekPool
    simp only [List.mem_append, List.mem_map]
    refine Or.inl (Or.inr ⟨f, ?_, rfl⟩)
    exact List.mem_filter.mpr ⟨hf, decide_eq_true hne⟩
  · intro p hp hne
    rw [mem_collectWeeks]
    unfold weekPool
    simp only [List.mem_append, List.mem_map]
    refine Or.inr ⟨p, ?_, rfl⟩
    exact List.mem_filter.mpr ⟨hp, decide_eq_true hne⟩

/-- Witness for C1 (amended) at a concrete mixed input. -/
theorem collectWeeks_spec_witness :
    "2025-03-17" ∈ collectWeeks mixedInputs ∧ "2025-03-03" ∈ collectWeeks mixedInputs := by
  have h := collectWeeks_spec mixedInputs
  constructor
  · exact h.2.2.2.2.1 mixedDeal (by decide) (by decide)
  · exact h.2.2.2.1 mixedCharge (by decide)

/-- C1 counterexample: the derived week list does not contain the
    `createdWeek` (nor `canceledWeek`) of subscription records — with a
    single subscription as input, the week list is empty, so the weekly
    subscription metrics never surface it. -/
theorem collectWeeks_missing_subscription :
    soloSubscription ∈ subsOnlyInputs.stripeSubs
    ∧ soloSubscription.createdWeek = "2025-01-06"
    ∧ collectWeeks subsOnlyInputs = []
    ∧ soloSubscription.createdWeek ∉ collectWeeks subsOnlyInputs
    ∧ weeklySubMetricsOf subsOnlyInputs = [] := by
  refine ⟨by decide, rfl, by decide, by decide, by decide⟩

/-! ## C8: monthly-equivalent subscription amount -/

/-- C8: the monthly-equivalent amount is computed by exact interval-count
    division — a yearly interval divides `unitAmount * quantity` by
    `12 * intervalCount`, a monthly interval by `intervalCount` — and the
    result is rounded to 2 decimals. -/
theorem monthlyAmount_division (item : SubItem) :
    (item.interval = "year" →
      monthlyAmountOf (some item)
        = round2 (item.unitAmountCents / 100 * qOr item.quantity 1
            / (12 * qOr item.intervalCount 1)))
    ∧ (item.interval = "month" →
      monthlyAmountOf (some item)
        = round2 (item.unitAmountCents / 100 * qOr item.quantity 1
            / qOr item.intervalCount 1)) := by
  constructor
  · intro h
    unfold monthlyAmountOf getMonthlyAmount
    dsimp only
    rw [h]
    simp [strOr]
  · intro h
    unfold monthlyAmountOf getMonthlyAmount
    dsimp only
    rw [h]
    simp [strOr]

/-- Witness for C8: the scenario subscription yields monthlyAmount 10.00. -/
theorem monthlyAmount_division_witness : monthlyAmountOf (some yearlyItem) = 10 := by
  have h := (monthlyAmount_division yearlyItem).1 rfl
  rw [h]
  show round2 ((12000 : ℚ) / 100 * qOr 0 1 / (12 * qOr 1 1)) = 10
  rw [show qOr (0 : ℚ) 1 = 1 from if_pos rfl,
    show qOr (1 : ℚ) 1 = 1 from if_neg (by norm_num),
    show (12000 : ℚ) / 100 * 1 / (12 * 1) = 10 by norm_num]
  unfold round2
  rw [roundTo_eq 2 10 1000 (by norm_num) (by norm_num)]
  norm_num

/-! ## C5 witness -/

theorem totalAdsCost_mixed : totalAdsCostOf mixedInputs = 50 := by
  unfold totalAdsCostOf
  have h : ((mixedInputs.googleAds.map (·.cost)).sum) = 50 := by
    simp [mixedInputs, mixedAd]
  rw [h]
  unfold round2
  rw [roundTo_eq 2 50 5000 (by norm_num) (by norm_num)]
  norm_num

/-- Witness for C5: at a concrete input, a month with positive MQLs takes
    the ratio branch, and a positive total ads cost takes the ROAS branch. -/
theorem ratio_zero_guards_witness :
    (buildMonth mixedInputs "2025-03").mqlToSql
      = round1 (((buildMonth mixedInputs "2025-03").sqls : ℚ)
          / ((buildMonth mixedInputs "2025-03").mqls : ℚ) * 100)
    ∧ roasOf mixedInputs
      = round2 (totalStripeRevenueOf mixedInputs / totalAdsCostOf mixedInputs) := by
  have h := ratio_zero_guards mixedInputs
  constructor
  · have hm : buildMonth mixedInputs "2025-03" ∈ monthlyOf mixedInputs :=
      List.mem_map_of_mem _ (by decide)
    exact (h.1 _ hm).2.1 (by decide)
  · apply h.2.2
    rw [totalAdsCost_mixed]
    norm_num

/-! ## C6: weekly Stripe breakdowns partition the week -/

theorem sum_map_filter_not {α M : Type} [AddCommMonoid M]
    (rows : List α) (p : α → Bool) (f : α → M) :
    ((rows.filter p).map f).sum + ((rows.filter (fun a => !(p a))).map f).sum
      = (rows.map f).sum := by
  induction rows with
  | nil => simp
  | cons a t ih =>
    by_cases hp : p a
    · rw [List.filter_cons_of_pos (by simpa using hp),
        List.filter_cons_of_neg (by simp [hp])]
      simp only [List.map_cons, List.sum_cons]
      rw [add_assoc, ih]
    · rw [List.filter_cons_of_neg (by simpa using hp),
        List.filter_cons_of_pos (by simp [hp])]
      simp only [List.map_cons, List.sum_cons]
      rw [add_left_comm, ih]

/-- Summing a function fiberwise over a complete, duplicate-free list of
    keys recovers the total sum. -/
theorem fiber_sum {α M : Type} [AddCommMonoid M] (key : α → String) (f : α → M) :
    ∀ (ks : List String) (rows : List α), ks.Nodup → (∀ r ∈ rows, key r ∈ ks) →
      (ks.map (fun k => ((rows.filter (fun r => key r == k)).map f).sum)).sum
        = (rows.map f).sum := by
  intro ks
  induction ks with
  | nil =>
    intro rows _ hcov
    cases rows with
    | nil => simp
    | cons r t => exact absurd (hcov r (List.mem_cons_self _ _)) (List.not_mem_nil _)
  | cons k ks ih =>
    intro rows hnd hcov
    have hnd2 := List.nodup_cons.mp hnd
    simp only [List.map_cons, List.sum_cons]
    have hstep : ∀ k2 ∈ ks,
        ((rows.filter (fun r => key r == k2)).map f).sum
          = (((rows.filter (fun r => !(key r == k))).filter
              (fun r => key r == k2)).map f).sum := by
      intro k2 hk2
      have hfe : rows.filter (fun r => key r == k2)
          = (rows.filter (fun r => !(key r == k))).filter (fun r => key r == k2) := by
        rw [List.filter_filter]
        apply List.filter_congr
        intro r _
        by_cases h2 : key r = k2
        · have hne2 : ¬ (k2 = k) := fun hk => hnd2.1 (hk ▸ hk2)
          simp [h2, hne2]
        · simp [h2]
      rw [← hfe]
    have hmapeq : ks.map (fun k2 => ((rows.filter (fun r => key r == k2)).map f).sum)
        = ks.map (fun k2 => (((rows.filter (fun r => !(key r == k))).filter
            (fun r => key r == k2)).map f).sum) :=
      List.map_congr_left hstep
    rw [hmapeq, ih (rows.filter (fun r => !(key r == k))) hnd2.2 ?_]
    · exact sum_map_filter_not rows _ f
    · intro r hr
      obtain ⟨hrmem, hrne⟩ := List.mem_filter.mp hr
      have := hcov r hrmem
      rcases List.mem_cons.mp this with h3 | h3
      · simp [h3] at hrne
      · exact h3

theorem sum_map_one {α : Type} (l : List α) : (l.map (fun _ => (1 : ℕ))).sum = l.length := by
  induction l with
  | nil => rfl
  | cons a t ih => simp [ih, Nat.add_comm]

/-- Every charge row of a week belongs to exactly one group of a
    breakdown, so the group counts sum to the row count. -/
theorem breakdown_sumCounts (rows : List Charge) (key : Charge → String) :
    sumCounts (breakdown rows key) = rows.length := by
  unfold sumCounts breakdown bucketFor bucketKeys
  rw [List.map_map]
  have h1 : ((firstDedup (rows.map key)).map
        (fun k => ((rows.filter (fun r => key r == k)).length)))
      = (firstDedup (rows.map key)).map
        (fun k => ((rows.filter (fun r => key r == k)).map (fun _ => (1 : ℕ))).sum) := by
    apply List.map_congr_left
    intro k _
    rw [sum_map_one]
  calc ((firstDedup (rows.map key)).map
        ((fun e => e.2.1) ∘ (fun k => (k, (rows.filter (fun r => key r == k)).length,
          ((rows.filter (fun r => key r == k)).map (·.amount)).sum)))).sum
      = ((firstDedup (rows.map key)).map
          (fun k => ((rows.filter (fun r => key r == k)).map (fun _ => (1 : ℕ))).sum)).sum := by
        rw [← h1]; rfl
    _ = (rows.map (fun _ => (1 : ℕ))).sum :=
        fiber_sum key (fun _ => 1) _ rows (nodup_firstDedup _)
          (fun r hr => (mem_firstDedup _ _).mpr (List.mem_map_of_mem _ hr))
    _ = rows.length := sum_map_one rows

/-- The unrounded group revenues of a breakdown sum to the unrounded week
    revenue. -/
theorem breakdown_sumRevs (rows : List Charge) (key : Charge → String) :
    sumRevs (breakdown rows key) = ((rows.map (·.amount)).sum) := by
  unfold sumRevs breakdown bucketFor bucketKeys
  rw [List.map_map]
  exact fiber_sum key (·.amount) _ rows (nodup_firstDedup _)
    (fun r hr => (mem_firstDedup _ _).mpr (List.mem_map_of_mem _ hr))

/-- Rounding group revenues does not change the group counts. -/
theorem sumCounts_roundCountRev (l : List (String × ℕ × ℚ)) :
    sumCounts (roundCountRev l) = sumCounts l := by
  unfold sumCounts roundCountRev
  rw [List.map_map]
  rfl

/-- C6 (amended): for every week bucket of the weekly Stripe aggregate and
    every per-dimension breakdown, the group counts sum exactly to the
    week's un-grouped record count, and the unrounded group revenues sum
    exactly to the week's un-grouped revenue.  (After per-group rounding
    the published revenues can differ from the published total by more
    than 0.01 — see the counterexample.) -/
theorem stripe_breakdown_partition (i : Inputs) (wr : WeekStripeRec)
    (hwr : wr ∈ weeklyStripeOf i) :
    (sumCounts wr.byPlanType = wr.count
      ∧ sumCounts wr.byProduct = wr.count
      ∧ sumCounts wr.byCountry = wr.count
      ∧ sumCounts wr.byCurrency = wr.count
      ∧ sumCounts wr.byChannel = wr.count)
    ∧ (sumRevs (breakdown (weekRows i wr.week) (·.planType))
        = ((weekRows i wr.week).map (·.amount)).sum
      ∧ sumRevs (breakdown (weekRows i wr.week) (·.product))
        = ((weekRows i wr.week).map (·.amount)).sum
      ∧ sumRevs (breakdown (weekRows i wr.week) (fun r => strOr r.country "Unknown"))
        = ((weekRows i wr.week).map (·.amount)).sum
      ∧ sumRevs (breakdown (weekRows i wr.week) (·.currency))
        = ((weekRows i wr.week).map (·.amount)).sum
      ∧ sumRevs (breakdown (weekRows i wr.week) (·.channel))
        = ((weekRows i wr.week).map (·.amount)).sum) := by
  obtain ⟨w, hw, rfl⟩ := List.mem_map.mp hwr
  unfold buildWeekStripe
  dsimp only
  constructor
  · refine ⟨?_, ?_, ?_, ?_, ?_⟩ <;>
      (rw [sumCounts_roundCountRev]; exact breakdown_sumCounts _ _)
  · exact ⟨breakdown_sumRevs _ _, breakdown_sumRevs _ _, breakdown_sumRevs _ _,
      breakdown_sumRevs _ _, breakdown_sumRevs _ _⟩

/-- Witness for C6 (amended) at the single-charge input of the C1 witness
    material. -/
theorem stripe_breakdown_partition_witness :
    sumCounts (buildWeekStripe mixedInputs "2025-03-03").byPlanType
      = (buildWeekStripe mixedInputs "2025-03-03").count := by
  have hm : buildWeekStripe mixedInputs "2025-03-03" ∈ weeklyStripeOf mixedInputs :=
    List.mem_map_of_mem _ (by decide)
  exact (stripe_breakdown_partition mixedInputs _ hm).1.1

theorem round2_tiny : round2 (mkRat 1 250) = 0 := by
  unfold round2
  rw [Rat.mkRat_eq_div]
  rw [roundTo_eq 2 ((1 : ℤ) / (250 : ℕ) : ℚ) 0 (by norm_num) (by norm_num)]
  norm_num

theorem round2_four_tiny : round2 (2/125 : ℚ) = 1/50 := by
  unfold round2
  rw [roundTo_eq 2 (2/125) 2 (by norm_num) (by norm_num)]
  norm_num

theorem fractionalWeek_byPlanType :
    fractionalWeek.byPlanType
      = [("A", 1, (0 : ℚ)), ("B", 1, 0), ("C", 1, 0), ("D", 1, 0)] := by
  have hfA : (weekRows fractionalInputs "2025-01-06").filter (fun r => r.planType == "A")
      = [tinyEnriched "A"] := by decide
  have hfB : (weekRows fractionalInputs "2025-01-06").filter (fun r => r.planType == "B")
      = [tinyEnriched "B"] := by decide
  have hfC : (weekRows fractionalInputs "2025-01-06").filter (fun r => r.planType == "C")
      = [tinyEnriched "C"] := by decide
  have hfD : (weekRows fractionalInputs "2025-01-06").filter (fun r => r.planType == "D")
      = [tinyEnriched "D"] := by decide
  have hkeys : bucketKeys (weekRows fractionalInputs "2025-01-06") (·.planType)
      = ["A", "B", "C", "D"] := by decide
  show roundCountRev (breakdown (weekRows fractionalInputs "2025-01-06") (·.planType)) = _
  unfold breakdown
  rw [hkeys]
  unfold bucketFor
  simp only [List.map_cons, List.map_nil]
  rw [hfA, hfB, hfC, hfD]
  unfold roundCountRev
  simp only [List.map_cons, List.map_nil, List.sum_cons, List.sum_nil]
  simp [tinyEnriched, round2_tiny]

theorem fractionalWeek_totalRevenue : fractionalWeek.totalRevenue = 1/50 := by
  have hrows : weekRows fractionalInputs "2025-01-06"
      = [tinyEnriched "A", tinyEnriched "B", tinyEnriched "C", tinyEnriched "D"] := by decide
  show round2 (((weekRows fractionalInputs "2025-01-06").map (·.amount)).sum) = 1/50
  rw [hrows]
  have hsum : (([tinyEnriched "A", tinyEnriched "B", tinyEnriched "C",
      tinyEnriched "D"].map (·.amount)).sum : ℚ) = 2/125 := by
    simp [tinyEnriched, Rat.mkRat_eq_div]
    norm_num
  rw [hsum, round2_four_tiny]

/-- C6 counterexample: in the published bucket for this input the rounded
    per-group revenues sum to 0 while the week's rounded total revenue is
    0.02, a discrepancy of 0.02 > 0.01 — so the claimed 0.01 tolerance
    does not hold for the published (rounded) figures. -/
theorem stripe_breakdown_tolerance_cex :
    fractionalWeek ∈ weeklyStripeOf fractionalInputs
    ∧ ¬ (|sumRevs fractionalWeek.byPlanType - fractionalWeek.totalRevenue| ≤ 1/100) := by
  constructor
  · exact List.mem_map_of_mem _ (by decide)
  · rw [fractionalWeek_byPlanType, fractionalWeek_totalRevenue]
    unfold sumRevs
    simp only [List.map_cons, List.map_nil, List.sum_cons, List.sum_nil]
    norm_num
    rw [abs_of_nonneg (by norm_num : (0 : ℚ) ≤ 1/50)]
    norm_num

end Dash
